import Mathlib

/-!
Verification of the invoice extraction & QC system (`invoice_qc`).

This file shallowly embeds the core pipeline of the repository:

* `src/invoice_qc/schema.py`    — pydantic models `LineItem` and `Invoice`
  with their construction-time (shape) validation;
* `src/invoice_qc/validator.py` — `InvoiceValidator` with its completeness /
  format / business / anomaly rule families, duplicate tracking and batch
  orchestration;
* `src/invoice_qc/extractor.py` — the record assembler
  `extract_invoice_from_text` and `parse_date`;
* `src/invoice_qc/utils/patterns.py` — the ordered-fallback field extraction
  loops, in particular `extract_amount`.

Conventions of the embedding:

* Python floats are modelled as exact rationals (`Rat`); the float literal
  `0.01` of the source becomes `1/100`.
* Python strings are modelled as `String`; the Python methods used by the
  source (`strip`, `upper`, `replace(",", "")`, `split(":")`) are modelled
  over the character list of the string (`pyStrip`, `pyUpper`, ...), which
  matches their behaviour on the `str` values the source handles.
* The external libraries used by the source — the `re` regex engine, the
  `dateutil` date parser and the Python `float` constructor — are not
  repository code; they enter the embedding as function parameters
  (a matcher `String → Option String` stands for `pattern.search(text)`
  followed by `match.group(1)`).  Everything written by the repository
  itself (loops, defaults, orderings, tolerances) is embedded directly.
* `dict`-shaped input records become structures of `Option`-valued fields
  (`none` = key absent or `None`); pydantic construction becomes an
  `Except String` value, one error message standing for the exception text.
-/

namespace InvoiceQC

/-- Calendar dates as used by `datetime.date`: compared chronologically,
printed in ISO `YYYY-MM-DD` form by `str(...)`. -/
structure PyDate where
  year : Nat
  month : Nat
  day : Nat
deriving DecidableEq, Repr

/-- Chronological strict order on dates (`date.__lt__`). -/
def PyDate.ltB (a b : PyDate) : Bool :=
  a.year < b.year ||
    (a.year = b.year && (a.month < b.month ||
      (a.month = b.month && a.day < b.day)))

/-- Zero-pad a numeral to two digits. -/
def pad2 (n : Nat) : String :=
  if n < 10 then "0" ++ toString n else toString n

/-- Zero-pad a numeral to four digits. -/
def pad4 (n : Nat) : String :=
  if n < 1000 then
    if n < 100 then
      if n < 10 then "000" ++ toString n else "00" ++ toString n
    else "0" ++ toString n
  else toString n

/-- `str(date)`: the ISO `YYYY-MM-DD` rendering. -/
def PyDate.isoString (d : PyDate) : String :=
  pad4 d.year ++ "-" ++ pad2 d.month ++ "-" ++ pad2 d.day

/-- The whitespace characters stripped by Python `str.strip()` that occur in
this pipeline. -/
def isSpaceChar (c : Char) : Bool :=
  c = ' ' || c = '\t' || c = '\n' || c = '\r'

/-- Python `str.strip()` over the character list of the string. -/
def pyStrip (s : String) : String :=
  String.mk (((s.data.dropWhile isSpaceChar).reverse.dropWhile isSpaceChar).reverse)

/-- Python `str.upper()` (ASCII case, which covers the currency codes the
source feeds it). -/
def pyUpper (s : String) : String :=
  String.mk (s.data.map Char.toUpper)

/-- The numeric tolerance of the source, the float literal `0.01`. -/
def tolerance : Rat := 1/100

/-! ## Schema layer (`src/invoice_qc/schema.py`) -/

/-- A validated line item (pydantic model `LineItem` after construction). -/
structure LineItem where
  description : String
  quantity : Rat
  unit_price : Rat
  line_total : Rat
deriving DecidableEq, Repr

/-- The raw field mapping a `LineItem` is constructed from; `none` models a
missing key (or `None` value). -/
structure RawLineItem where
  description : Option String
  quantity : Option Rat
  unit_price : Option Rat
  line_total : Option Rat
deriving DecidableEq, Repr

/-- A required field with no further constraint (`Field(...)`). -/
def reqField (v : Option α) (name : String) : Except String α :=
  match v with
  | none => Except.error (name ++ ": field required")
  | some a => Except.ok a

/-- A required numeric field with pydantic constraint `ge=0`. -/
def reqNonneg (v : Option Rat) (name : String) : Except String Rat :=
  match v with
  | none => Except.error (name ++ ": field required")
  | some q => if q < 0 then Except.error (name ++ ": must be >= 0") else Except.ok q

/-- A required text field with pydantic constraint `min_length=1`. -/
def reqStr (v : Option String) (name : String) : Except String String :=
  match v with
  | none => Except.error (name ++ ": field required")
  | some s => if 1 ≤ s.length then Except.ok s
              else Except.error (name ++ ": string too short")

/-- A required date field (`Field(...)` of type `date`). -/
def reqDate (v : Option PyDate) (name : String) : Except String PyDate :=
  match v with
  | none => Except.error (name ++ ": field required")
  | some d => Except.ok d

/-- Constructing a `LineItem` (pydantic field validation in declaration order,
then the `validate_line_total` model validator:
`|line_total - quantity * unit_price| > 0.01` raises). -/
def mkLineItem (r : RawLineItem) : Except String LineItem := do
  let description ← reqField r.description "description"
  let quantity ← reqNonneg r.quantity "quantity"
  let unit_price ← reqNonneg r.unit_price "unit_price"
  let line_total ← reqNonneg r.line_total "line_total"
  if |line_total - quantity * unit_price| > tolerance then
    Except.error "line_total does not match quantity * unit_price"
  else
    Except.ok { description := description, quantity := quantity,
                unit_price := unit_price, line_total := line_total }

/-- A validated invoice (pydantic model `Invoice` after construction).
`invoice_date` is a required field in the source schema, hence not optional
here; `currency` is stored upper-cased by `validate_currency`. -/
structure Invoice where
  invoice_number : String
  invoice_date : PyDate
  due_date : Option PyDate
  seller_name : String
  seller_address : Option String
  seller_tax_id : Option String
  buyer_name : String
  buyer_address : Option String
  buyer_tax_id : Option String
  currency : String
  net_total : Rat
  tax_amount : Rat
  gross_total : Rat
  line_items : List LineItem
deriving DecidableEq, Repr

/-- The raw field mapping an `Invoice` is constructed from (the
`invoice_data` dictionary).  The extra `invoice_id` key is ignored by
pydantic construction and only read back by the validator for display. -/
structure RawInvoice where
  invoice_id : Option String
  invoice_number : Option String
  invoice_date : Option PyDate
  due_date : Option PyDate
  seller_name : Option String
  seller_address : Option String
  seller_tax_id : Option String
  buyer_name : Option String
  buyer_address : Option String
  buyer_tax_id : Option String
  currency : Option String
  net_total : Option Rat
  tax_amount : Option Rat
  gross_total : Option Rat
  line_items : Option (List RawLineItem)
deriving DecidableEq, Repr

/-- Construct every nested `LineItem`; any failure fails the whole invoice. -/
def mkLineItems : List RawLineItem → Except String (List LineItem)
  | [] => Except.ok []
  | r :: rs => do
    let li ← mkLineItem r
    let rest ← mkLineItems rs
    Except.ok (li :: rest)

/-- The `validate_currency` field validator: the upper-cased code must be one
of `EUR`, `USD`, `INR`; the upper-cased form is stored. -/
def reqCurrency (v : Option String) : Except String String :=
  match v with
  | none => Except.error ("currency: field required")
  | some c =>
    if ["EUR", "USD", "INR"].contains (pyUpper c) then Except.ok (pyUpper c)
    else Except.error ("Currency must be one of EUR, USD, INR, got " ++ c)

/-- The `validate_due_date` model validator: a present `due_date` earlier
than `invoice_date` raises, otherwise the model is returned unchanged. -/
def checkDueDate (due_date : Option PyDate) (invoice_date : PyDate) :
    Except String Unit :=
  match due_date with
  | some dd =>
    if dd.ltB invoice_date then
      Except.error ("due_date " ++ dd.isoString ++ " must be >= invoice_date "
          ++ invoice_date.isoString)
    else Except.ok ()
  | none => Except.ok ()

/-- Constructing an `Invoice` (pydantic field validation in declaration
order, `line_items` defaulting to `[]`, then the `validate_due_date` model
validator). -/
def mkInvoice (r : RawInvoice) : Except String Invoice := do
  let invoice_number ← reqStr r.invoice_number "invoice_number"
  let invoice_date ← reqDate r.invoice_date "invoice_date"
  let seller_name ← reqStr r.seller_name "seller_name"
  let buyer_name ← reqStr r.buyer_name "buyer_name"
  let currency ← reqCurrency r.currency
  let net_total ← reqNonneg r.net_total "net_total"
  let tax_amount ← reqNonneg r.tax_amount "tax_amount"
  let gross_total ← reqNonneg r.gross_total "gross_total"
  let line_items ← mkLineItems (r.line_items.getD [])
  let _u ← checkDueDate r.due_date invoice_date
  Except.ok { invoice_number := invoice_number, invoice_date := invoice_date,
              due_date := r.due_date, seller_name := seller_name,
              seller_address := r.seller_address, seller_tax_id := r.seller_tax_id,
              buyer_name := buyer_name, buyer_address := r.buyer_address,
              buyer_tax_id := r.buyer_tax_id, currency := currency,
              net_total := net_total, tax_amount := tax_amount,
              gross_total := gross_total, line_items := line_items }

/-! ## Validator layer (`src/invoice_qc/validator.py`) -/

/-- One entry of `validate_batch`'s result list. -/
structure ValidationResult where
  invoice_id : String
  is_valid : Bool
  errors : List String
deriving DecidableEq, Repr

/-- The duplicate key of `_validate_anomalies`:
`(invoice_number, seller_name, str(invoice_date) if invoice_date else None)`.
A `date` value is always truthy in Python and `invoice_date` is a required
field, so the third component is always the ISO text of the date. -/
def DupKey := String × String × Option String
deriving instance DecidableEq, Repr for DupKey

/-- The duplicate key of a shape-valid invoice. -/
def dupKey (inv : Invoice) : DupKey :=
  (inv.invoice_number, inv.seller_name, some inv.invoice_date.isoString)

/-- Render `%.2f` of a rational: the value rounded to hundredths.  The source
only ever formats the numbers this way for error-message display. -/
def formatRat2 (q : Rat) : String :=
  let n : Int := (q * 100 + 1/2).floor
  let sign := if n < 0 then "-" else ""
  sign ++ toString (n.natAbs / 100) ++ "." ++ pad2 (n.natAbs % 100)

/-- `_validate_completeness`.  The source also tests
`invoice.invoice_date is None`, but `invoice_date` is a required
non-optional field of the pydantic schema, so that test can never fire on a
constructed `Invoice` and has no counterpart on the embedding's
non-optional `invoice_date` field. -/
def validate_completeness (inv : Invoice) : List String :=
  (if inv.invoice_number = "" ∨ (pyStrip inv.invoice_number).length = 0 then
      ["missing_field: invoice_number"] else []) ++
  (if inv.seller_name = "" ∨ (pyStrip inv.seller_name).length = 0 then
      ["missing_field: seller_name"] else []) ++
  (if inv.buyer_name = "" ∨ (pyStrip inv.buyer_name).length = 0 then
      ["missing_field: buyer_name"] else [])

/-- `_validate_format`. -/
def validate_format (inv : Invoice) : List String :=
  (if inv.net_total < 0 then ["format_error: net_total must be >= 0"] else []) ++
  (if inv.tax_amount < 0 then ["format_error: tax_amount must be >= 0"] else []) ++
  (if inv.gross_total < 0 then ["format_error: gross_total must be >= 0"] else [])

/-- `sum(item.line_total for item in invoice.line_items)`. -/
def lineItemsSum (inv : Invoice) : Rat :=
  (inv.line_items.map LineItem.line_total).sum

/-- The shared `"business_rule_failed: "` category text of the three
business-rule messages. -/
def bizTag : String := "business_rule_failed: "

/-- The `totals_mismatch` message. -/
def totalsMsg (inv : Invoice) : String :=
  bizTag ++ ("totals_mismatch (line_items_sum=" ++ formatRat2 (lineItemsSum inv)
    ++ ", net_total=" ++ formatRat2 inv.net_total ++ ")")

/-- The `gross_total_mismatch` message. -/
def grossMsg (inv : Invoice) : String :=
  bizTag ++ ("gross_total_mismatch (expected=" ++ formatRat2 (inv.net_total + inv.tax_amount)
    ++ ", actual=" ++ formatRat2 inv.gross_total ++ ")")

/-- The `due_date_before_invoice_date` message. -/
def dueMsg (dd : PyDate) (inv : Invoice) : String :=
  bizTag ++ ("due_date_before_invoice_date (due_date=" ++ dd.isoString
    ++ ", invoice_date=" ++ inv.invoice_date.isoString ++ ")")

/-- `_validate_business_rules`: line-item sum vs `net_total`,
`net_total + tax_amount` vs `gross_total`, and the (rule-layer) due-date
ordering check, all accumulated. -/
def validate_business_rules (inv : Invoice) : List String :=
  (if |lineItemsSum inv - inv.net_total| > tolerance then [totalsMsg inv] else []) ++
  (if |inv.net_total + inv.tax_amount - inv.gross_total| > tolerance then [grossMsg inv] else []) ++
  (match inv.due_date with
   | some dd => if dd.ltB inv.invoice_date then [dueMsg dd inv] else []
   | none => [])

/-- The duplicate-invoice message of `_validate_anomalies`. -/
def dupMsg (inv : Invoice) : String :=
  "anomaly_detected: duplicate_invoice (invoice_number=" ++ inv.invoice_number
    ++ ", seller=" ++ inv.seller_name ++ ", date=" ++ inv.invoice_date.isoString ++ ")"

/-- `_validate_anomalies`: flag if the duplicate key is already tracked
(leaving the tracking state unchanged), otherwise record the key. -/
def validate_anomalies (seen : List DupKey) (inv : Invoice) :
    List String × List DupKey :=
  if dupKey inv ∈ seen then ([dupMsg inv], seen)
  else ([], dupKey inv :: seen)

/-- `invoice_data.get("invoice_id", invoice_data.get("invoice_number", "unknown"))`. -/
def getInvoiceId (r : RawInvoice) : String :=
  (r.invoice_id).getD ((r.invoice_number).getD "unknown")

/-- `InvoiceValidator.validate`: shape gate first (one `schema_error` entry
and an early return on failure), then the four rule families accumulated in
order.  The duplicate-tracking state `seen` models `self.seen_invoices`. -/
def validate (seen : List DupKey) (r : RawInvoice) :
    ValidationResult × List DupKey :=
  let invoice_id := getInvoiceId r
  match mkInvoice r with
  | Except.error e =>
      ({ invoice_id := invoice_id, is_valid := false,
         errors := ["schema_error: " ++ e] }, seen)
  | Except.ok inv =>
      let anom := validate_anomalies seen inv
      let errors := validate_completeness inv ++ validate_format inv
          ++ validate_business_rules inv ++ anom.1
      ({ invoice_id := invoice_id, is_valid := errors.isEmpty,
         errors := errors }, anom.2)

/-- The per-record loop of `validate_batch`, threading the duplicate state. -/
def runBatch : List DupKey → List RawInvoice → List ValidationResult × List DupKey
  | seen, [] => ([], seen)
  | seen, r :: rs =>
      let p := validate seen r
      let q := runBatch p.2 rs
      (p.1 :: q.1, q.2)

/-- The duplicate-tracking state after validating a list of records. -/
def stateFrom (seen : List DupKey) : List RawInvoice → List DupKey
  | [] => seen
  | r :: rs => stateFrom (validate seen r).2 rs

/-- `error.split(":")[0] if ":" in error else "unknown"`. -/
def errorCategory (e : String) : String :=
  if e.data.contains ':' then String.mk (e.data.takeWhile (fun c => c ≠ ':'))
  else "unknown"

/-- `Counter` increment: bump the entry of a key, appending a fresh entry
when the key is untracked. -/
def bumpCount : List (String × Nat) → String → List (String × Nat)
  | [], k => [(k, 1)]
  | (k', n) :: rest, k =>
      if k' = k then (k', n + 1) :: rest else (k', n) :: bumpCount rest k

/-- Count one result's errors by category into the running counter. -/
def addErrorCounts (counts : List (String × Nat)) (errs : List String) :
    List (String × Nat) :=
  errs.foldl (fun c e => bumpCount c (errorCategory e)) counts

/-- Counter lookup with the counter's implicit zero default. -/
def lookupD : List (String × Nat) → String → Nat
  | [], _ => 0
  | (k', n) :: rest, k => if k' = k then n else lookupD rest k

/-- The summary block of `validate_batch`'s return value. -/
structure BatchSummary where
  total_invoices : Nat
  valid_invoices : Nat
  invalid_invoices : Nat
  error_counts : List (String × Nat)
deriving DecidableEq, Repr

/-- `validate_batch`'s return value. -/
structure BatchReport where
  results : List ValidationResult
  summary : BatchSummary
deriving DecidableEq, Repr

/-- `InvoiceValidator.validate_batch`: clear the duplicate-tracking state,
validate every record in order, count errors by category, and summarize.
The second component is the validator's duplicate state after the call. -/
def validate_batch (_seen : List DupKey) (invoices : List RawInvoice) :
    BatchReport × List DupKey :=
  let p := runBatch [] invoices
  let results := p.1
  let error_counts := results.foldl (fun c res => addErrorCounts c res.errors) []
  let valid_count := results.countP (fun res => res.is_valid)
  ({ results := results,
     summary := { total_invoices := invoices.length,
                  valid_invoices := valid_count,
                  invalid_invoices := results.length - valid_count,
                  error_counts := error_counts } }, p.2)

/-- `InvoiceValidator.reset_duplicate_tracking`. -/
def reset_duplicate_tracking (_seen : List DupKey) : List DupKey := []

/-! ## Field extraction (`src/invoice_qc/utils/patterns.py`,
`src/invoice_qc/extractor.py`)

A `Matcher` stands for one compiled regex: `p text` models
`pattern.search(text)` returning `match.group(1)` (or `none` on no match).
The regex engine itself is the external `re` library; the repository's code
is the ordered first-match-wins loops over the pattern lists, which are
embedded here. -/

/-- One compiled pattern: `search` + `group(1)`. -/
def Matcher := String → Option String

/-- The shared loop of `extract_invoice_number`, `extract_date`,
`extract_seller_name`, `extract_buyer_name`, `extract_address` and
`extract_tax_id`: first pattern that matches wins, the captured group is
stripped of surrounding whitespace. -/
def firstMatch : List Matcher → String → Option String
  | [], _ => none
  | p :: rest, text =>
    match p text with
    | some m => some (pyStrip m)
    | none => firstMatch rest text

/-- `extract_currency`: first-match-wins with the symbol table
`€ ↦ EUR`, `$ ↦ USD`, `₹ ↦ INR`; any other matched token is upper-cased. -/
def extract_currency : List Matcher → String → Option String
  | [], _ => none
  | p :: rest, text =>
    match p text with
    | some m =>
      let c := pyStrip m
      if c = "€" then some "EUR"
      else if c = "$" then some "USD"
      else if c = "₹" then some "INR"
      else some (pyUpper c)
    | none => extract_currency rest text

/-- `amount_str.replace(',', '')`: drop every thousands separator. -/
def stripCommas (s : String) : String :=
  String.mk (s.data.filter (fun c => c ≠ ','))

/-- `extract_amount`: try each pattern in order; on a match, strip commas and
parse (`pyFloat` models the Python `float` constructor, `none` modelling a
`ValueError`); a failed parse falls through to the next pattern. -/
def extract_amount (pyFloat : String → Option Rat) :
    List Matcher → String → Option Rat
  | [], _ => none
  | p :: rest, text =>
    match p text with
    | some m =>
      match pyFloat (stripCommas m) with
      | some v => some v
      | none => extract_amount pyFloat rest text
    | none => extract_amount pyFloat rest text

/-- A line-item dictionary produced by `extract_line_items`; `none` models a
missing key, read back through `dict.get` defaults by the assembler. -/
structure ExtractedLineItem where
  description : Option String
  quantity : Option Rat
  unit_price : Option Rat
  line_total : Option Rat
deriving DecidableEq, Repr

/-- A line-item entry of the assembled record (all defaults applied). -/
structure AssembledLineItem where
  description : String
  quantity : Rat
  unit_price : Rat
  line_total : Rat
deriving DecidableEq, Repr

/-- The record `extract_invoice_from_text` assembles (the
`invoice_data` dictionary of `extractor.py`, dates still ISO text). -/
structure ExtractedRecord where
  invoice_number : String
  invoice_date : Option String
  due_date : Option String
  seller_name : String
  seller_address : Option String
  seller_tax_id : Option String
  buyer_name : String
  buyer_address : Option String
  buyer_tax_id : Option String
  currency : String
  net_total : Rat
  tax_amount : Rat
  gross_total : Rat
  line_items : List AssembledLineItem
  invoice_id : Option String
deriving DecidableEq, Repr

/-- The extraction environment: the compiled pattern lists of `patterns.py`,
the external `dateutil` parser (`dayfirst=True, fuzzy=True`, `none` on
failure), the external Python `float` constructor, and the
`extract_line_items` table scanner (regex-driven end to end). -/
structure RegexEnv where
  invoiceNumberPatterns : List Matcher
  datePatterns : List Matcher
  dueDatePatterns : List Matcher
  sellerPatterns : List Matcher
  buyerPatterns : List Matcher
  addressPatterns : List Matcher
  taxIdPatterns : List Matcher
  currencyPatterns : List Matcher
  netTotalPatterns : List Matcher
  taxAmountPatterns : List Matcher
  grossTotalPatterns : List Matcher
  lineItems : String → List ExtractedLineItem
  dateutil : String → Option PyDate
  pyFloat : String → Option Rat

/-- `parse_date` of `extractor.py`: empty input is falsy and yields `none`;
otherwise the `dateutil` parse, ISO-rendered on success, `none` on failure. -/
def parse_date (dateutil : String → Option PyDate) (date_str : String) :
    Option String :=
  if date_str = "" then none
  else
    match dateutil date_str with
    | some d => some d.isoString
    | none => none

/-- Python `x or default` on an optional string (both `None` and `""` are
falsy). -/
def pyOrStr (v : Option String) (dflt : String) : String :=
  match v with
  | none => dflt
  | some s => if s = "" then dflt else s

/-- Python `x or default` on an optional number (both `None` and `0.0` are
falsy). -/
def pyOrRat (v : Option Rat) (dflt : Rat) : Rat :=
  match v with
  | none => dflt
  | some x => if x = 0 then dflt else x

/-- Python `f(s) if s else None` on an optional string. -/
def pyIfStr (v : Option String) (f : String → Option String) : Option String :=
  match v with
  | none => none
  | some s => if s = "" then none else f s

/-- Python truthiness filter on the optional `invoice_id` argument
(`if invoice_id: invoice_data["invoice_id"] = invoice_id`). -/
def pyIfId (v : Option String) : Option String :=
  match v with
  | none => none
  | some s => if s = "" then none else some s

/-- `extract_invoice_from_text`: run every field extractor, apply the
defaults, normalize the dates, assemble the record.  Total by construction:
no code path raises. -/
def extract_invoice_from_text (E : RegexEnv) (text : String)
    (invoice_id : Option String) : ExtractedRecord :=
  let invoice_number := pyOrStr (firstMatch E.invoiceNumberPatterns text) "UNKNOWN"
  let invoice_date_str := firstMatch E.datePatterns text
  let due_date_str := firstMatch E.dueDatePatterns text
  let seller_name := firstMatch E.sellerPatterns text
  let buyer_name := firstMatch E.buyerPatterns text
  let seller_address := firstMatch E.addressPatterns text
  let buyer_address : Option String := none
  let seller_tax_id := firstMatch E.taxIdPatterns text
  let buyer_tax_id : Option String := none
  let currency := pyOrStr (extract_currency E.currencyPatterns text) "USD"
  let net_total := pyOrRat (extract_amount E.pyFloat E.netTotalPatterns text) 0
  let tax_amount := pyOrRat (extract_amount E.pyFloat E.taxAmountPatterns text) 0
  let gross_total := pyOrRat (extract_amount E.pyFloat E.grossTotalPatterns text) 0
  let line_items := (E.lineItems text).map (fun item =>
    { description := item.description.getD "",
      quantity := item.quantity.getD 0,
      unit_price := item.unit_price.getD 0,
      line_total := item.line_total.getD 0 : AssembledLineItem })
  { invoice_number := invoice_number,
    invoice_date := pyIfStr invoice_date_str (parse_date E.dateutil),
    due_date := pyIfStr due_date_str (parse_date E.dateutil),
    seller_name := pyOrStr seller_name "",
    seller_address := seller_address,
    seller_tax_id := seller_tax_id,
    buyer_name := pyOrStr buyer_name "",
    buyer_address := buyer_address,
    buyer_tax_id := buyer_tax_id,
    currency := currency,
    net_total := net_total,
    tax_amount := tax_amount,
    gross_total := gross_total,
    line_items := line_items,
    invoice_id := pyIfId invoice_id }

/-! ## Concrete sample data (used by the witness theorems) -/

/-- A sample invoice date. -/
def demoDate : PyDate := { year := 2024, month := 1, day := 15 }

/-- A shape-valid raw record with zero totals and no line items. -/
def demoRec : RawInvoice :=
  { invoice_id := none, invoice_number := some "INV-001",
    invoice_date := some demoDate, due_date := none,
    seller_name := some "Seller", seller_address := none, seller_tax_id := none,
    buyer_name := some "Buyer", buyer_address := none, buyer_tax_id := none,
    currency := some "USD", net_total := some 0, tax_amount := some 0,
    gross_total := some 0, line_items := some [] }

/-- The invoice `demoRec` constructs to. -/
def demoInv : Invoice :=
  { invoice_number := "INV-001", invoice_date := demoDate, due_date := none,
    seller_name := "Seller", seller_address := none, seller_tax_id := none,
    buyer_name := "Buyer", buyer_address := none, buyer_tax_id := none,
    currency := "USD", net_total := 0, tax_amount := 0, gross_total := 0,
    line_items := [] }

/-- A raw record with every field missing (fails shape validation). -/
def emptyRec : RawInvoice :=
  { invoice_id := none, invoice_number := none, invoice_date := none,
    due_date := none, seller_name := none, seller_address := none,
    seller_tax_id := none, buyer_name := none, buyer_address := none,
    buyer_tax_id := none, currency := none, net_total := none,
    tax_amount := none, gross_total := none, line_items := none }

/-- `demoRec` with a due date earlier than the invoice date (fails shape
validation at the `validate_due_date` model validator). -/
def badDueRec : RawInvoice :=
  { demoRec with due_date := some { year := 2024, month := 1, day := 10 } }

/-- `demoRec` with a due date after the invoice date (shape-valid). -/
def okDueRec : RawInvoice :=
  { demoRec with due_date := some { year := 2024, month := 2, day := 15 } }

/-- The invoice `okDueRec` constructs to. -/
def okDueInv : Invoice :=
  { demoInv with due_date := some { year := 2024, month := 2, day := 15 } }

/-- A shape-valid invoice violating both the `totals_mismatch` and the
`gross_total_mismatch` business rules. -/
def mismatchInv : Invoice :=
  { demoInv with net_total := 100, tax_amount := 10, gross_total := 0 }

/-- Raw line item with `2 × 10.00 = 20.00` (exact). -/
def lineOk : RawLineItem :=
  { description := some "item", quantity := some 2, unit_price := some 10,
    line_total := some 20 }

/-- Raw line item with `line_total = 20.02` against `2 × 10.00`. -/
def line2002 : RawLineItem :=
  { lineOk with line_total := some (2002/100) }

/-- Raw line item with `line_total = 21.00` against `2 × 10.00`. -/
def line2100 : RawLineItem :=
  { lineOk with line_total := some 21 }

/-- An extraction environment in which no pattern ever matches and nothing
parses: every field extractor comes back empty. -/
def emptyEnv : RegexEnv :=
  { invoiceNumberPatterns := [], datePatterns := [], dueDatePatterns := [],
    sellerPatterns := [], buyerPatterns := [], addressPatterns := [],
    taxIdPatterns := [], currencyPatterns := [], netTotalPatterns := [],
    taxAmountPatterns := [], grossTotalPatterns := [],
    lineItems := fun _ => [], dateutil := fun _ => none,
    pyFloat := fun _ => none }

/-! ## General helper lemmas -/

/-- `Except.bind` on a success. -/
theorem ok_bind {α β : Type} (a : α) (f : α → Except String β) :
    (Except.ok a >>= f) = f a := rfl

/-- `Except.bind` on a failure. -/
theorem error_bind {α β : Type} (e : String) (f : α → Except String β) :
    ((Except.error e : Except String α) >>= f) = Except.error e := rfl

/-- A bind fails whenever every successful prefix leads to a failure. -/
theorem bind_error_of {α β : Type} (x : Except String α)
    (f : α → Except String β) (h : ∀ a, x = Except.ok a → ∃ e, f a = Except.error e) :
    ∃ e, (x >>= f) = Except.error e := by
  cases x with
  | error e => exact ⟨e, rfl⟩
  | ok a => simpa [ok_bind] using h a rfl

/-- Membership in a conditional singleton forces equality. -/
theorem mem_iteSingleton {α : Type} {c : Prop} [Decidable c] {a x : α}
    (h : a ∈ (if c then [x] else [])) : a = x := by
  by_cases hc : c
  · rw [if_pos hc] at h; simpa using h
  · rw [if_neg hc] at h; simp at h

/-- The head character of an appended string is the head of its first part. -/
theorem head_append {p x : String} {c : Char}
    (h : p.data.head? = some c) : ((p ++ x).data).head? = some c := by
  rw [String.data_append]
  cases hd : p.data with
  | nil => rw [hd] at h; cases h
  | cons a as => rw [hd] at h; simpa using h

/-- Strings with distinct head characters are distinct. -/
theorem ne_of_head {s t : String} {c c' : Char}
    (hs : s.data.head? = some c) (ht : t.data.head? = some c') (h : c ≠ c') :
    s ≠ t := by
  intro he
  rw [he, ht] at hs
  exact h (Option.some.inj hs.symm)

/-- Left cancellation for string append. -/
theorem string_append_cancel {p x y : String} (h : p ++ x = p ++ y) : x = y := by
  have hd : (p ++ x).data = (p ++ y).data := congrArg String.data h
  rw [String.data_append, String.data_append] at hd
  exact String.ext (List.append_cancel_left hd)

/-- Strings sharing the `bizTag` prefix but with distinct continuation head
characters are distinct. -/
theorem tagged_ne {x y : String} {cx cy : Char}
    (hx : x.data.head? = some cx) (hy : y.data.head? = some cy) (h : cx ≠ cy) :
    bizTag ++ x ≠ bizTag ++ y := by
  intro he
  have hxy : x = y := string_append_cancel he
  rw [hxy, hy] at hx
  exact h (Option.some.inj hx.symm)

/-- Indexing a `take`: the prefix and the original list agree below the cut. -/
theorem mem_take_iff_getElem? {α : Type} (l : List α) (n : Nat) (a : α) :
    a ∈ l.take n ↔ ∃ j, j < n ∧ l[j]? = some a := by
  induction l generalizing n with
  | nil => simp
  | cons x xs ih =>
    cases n with
    | zero => simp
    | succ m =>
      simp only [List.take_succ_cons, List.mem_cons, ih]
      constructor
      · rintro (rfl | ⟨j, hj, hget⟩)
        · exact ⟨0, Nat.succ_pos m, by simp⟩
        · exact ⟨j + 1, Nat.succ_lt_succ hj, by simpa using hget⟩
      · rintro ⟨j, hj, hget⟩
        cases j with
        | zero => left; simpa using hget.symm
        | succ j =>
          right; exact ⟨j, Nat.lt_of_succ_lt_succ hj, by simpa using hget⟩

/-! ## Lemmas about the validator -/

/-- A result's `is_valid` flag agrees with emptiness of its error list. -/
theorem validate_is_valid_eq (seen : List DupKey) (r : RawInvoice) :
    ((validate seen r).1).is_valid = ((validate seen r).1).errors.isEmpty := by
  cases h : mkInvoice r with
  | error e => simp [validate, h]
  | ok inv => simp [validate, h]

/-- Every result produced by the batch loop satisfies the
`is_valid`/`errors` agreement. -/
theorem runBatch_is_valid (seen : List DupKey) (rs : List RawInvoice) :
    ∀ res ∈ (runBatch seen rs).1, res.is_valid = res.errors.isEmpty := by
  induction rs generalizing seen with
  | nil => simp [runBatch]
  | cons r rs ih =>
    intro res hres
    simp only [runBatch, List.mem_cons] at hres
    rcases hres with rfl | hres
    · exact validate_is_valid_eq seen r
    · exact ih _ res hres

/-- The batch loop yields one result per record. -/
theorem runBatch_length (seen : List DupKey) (rs : List RawInvoice) :
    (runBatch seen rs).1.length = rs.length := by
  induction rs generalizing seen with
  | nil => simp [runBatch]
  | cons r rs ih => simp [runBatch, ih]

/-- The `i`-th batch result is the validation of the `i`-th record against
the duplicate state accumulated over the records before it. -/
theorem runBatch_getElem? (seen : List DupKey) (rs : List RawInvoice) (i : Nat) :
    (runBatch seen rs).1[i]? =
      (rs[i]?).map (fun r => (validate (stateFrom seen (rs.take i)) r).1) := by
  induction rs generalizing seen i with
  | nil => simp [runBatch]
  | cons r rs ih =>
    cases i with
    | zero => simp [runBatch, stateFrom]
    | succ j => simp [runBatch, stateFrom, List.take_succ_cons, ih]

/-- Membership in the duplicate state: exactly the keys of the already-seen
shape-valid records (plus whatever was tracked before). -/
theorem mem_stateFrom (k : DupKey) (seen : List DupKey) (rs : List RawInvoice) :
    k ∈ stateFrom seen rs ↔
      k ∈ seen ∨ ∃ r ∈ rs, ∃ inv, mkInvoice r = Except.ok inv ∧ dupKey inv = k := by
  induction rs generalizing seen with
  | nil => simp [stateFrom]
  | cons r rs ih =>
    have hstep : k ∈ (validate seen r).2 ↔
        k ∈ seen ∨ ∃ inv, mkInvoice r = Except.ok inv ∧ dupKey inv = k := by
      cases hmk : mkInvoice r with
      | error e => simp [validate, hmk]
      | ok inv =>
        simp only [validate, hmk]
        by_cases hk : dupKey inv ∈ seen
        · simp only [validate_anomalies, if_pos hk]
          constructor
          · intro h; exact Or.inl h
          · rintro (h | ⟨inv', hinv', hkey⟩)
            · exact h
            · cases hinv'; exact hkey ▸ hk
        · simp only [validate_anomalies, if_neg hk, List.mem_cons]
          constructor
          · rintro (rfl | h)
            · exact Or.inr ⟨inv, rfl, rfl⟩
            · exact Or.inl h
          · rintro (h | ⟨inv', hinv', hkey⟩)
            · exact Or.inr h
            · cases hinv'; exact Or.inl hkey.symm
    rw [stateFrom, ih, hstep]
    constructor
    · rintro (((h | ⟨inv, hinv, hkey⟩) | ⟨r', hr', inv', hinv', hkey'⟩))
      · exact Or.inl h
      · exact Or.inr ⟨r, List.mem_cons_self r rs, inv, hinv, hkey⟩
      · exact Or.inr ⟨r', List.mem_cons_of_mem r hr', inv', hinv', hkey'⟩
    · rintro (h | ⟨r', hr', inv', hinv', hkey'⟩)
      · exact Or.inl (Or.inl h)
      · rcases List.mem_cons.mp hr' with rfl | hr'
        · exact Or.inl (Or.inr ⟨inv', hinv', hkey'⟩)
        · exact Or.inr ⟨r', hr', inv', hinv', hkey'⟩

/-! ## Lemmas about the error counter -/

/-- Bumping a key changes exactly that key's count, by one. -/
theorem lookupD_bumpCount (cs : List (String × Nat)) (k c : String) :
    lookupD (bumpCount cs k) c = lookupD cs c + (if k = c then 1 else 0) := by
  induction cs with
  | nil =>
    by_cases h : k = c
    · subst h; simp [bumpCount, lookupD]
    · simp [bumpCount, lookupD, h]
  | cons p rest ih =>
    obtain ⟨k', n⟩ := p
    by_cases h1 : k' = k
    · subst h1
      by_cases h2 : k' = c
      · subst h2; simp [bumpCount, lookupD]
      · simp [bumpCount, lookupD, h2]
    · by_cases h2 : k' = c
      · subst h2
        have : ¬ k = k' := fun h => h1 h.symm
        simp [bumpCount, lookupD, h1, this]
      · simp [bumpCount, lookupD, h1, h2, ih]

/-- Bumping a key grows the total count by one. -/
theorem sum_bumpCount (cs : List (String × Nat)) (k : String) :
    ((bumpCount cs k).map Prod.snd).sum = ((cs.map Prod.snd).sum) + 1 := by
  induction cs with
  | nil => simp [bumpCount]
  | cons p rest ih =>
    obtain ⟨k', n⟩ := p
    by_cases h : k' = k
    · simp [bumpCount, h]
      omega
    · simp [bumpCount, h, ih]
      omega

/-- Counting a list of errors adds, per category, the number of its errors
of that category. -/
theorem lookupD_addErrorCounts (errs : List String) (cs : List (String × Nat))
    (c : String) :
    lookupD (addErrorCounts cs errs) c =
      lookupD cs c + errs.countP (fun e => errorCategory e == c) := by
  induction errs generalizing cs with
  | nil => simp [addErrorCounts]
  | cons e es ih =>
    have : addErrorCounts cs (e :: es) =
        addErrorCounts (bumpCount cs (errorCategory e)) es := rfl
    rw [this, ih, lookupD_bumpCount, List.countP_cons]
    by_cases hc : errorCategory e = c
    · simp [hc]; omega
    · simp [hc]

/-- Counting a list of errors grows the total count by its length. -/
theorem sum_addErrorCounts (errs : List String) (cs : List (String × Nat)) :
    ((addErrorCounts cs errs).map Prod.snd).sum =
      ((cs.map Prod.snd).sum) + errs.length := by
  induction errs generalizing cs with
  | nil => simp [addErrorCounts]
  | cons e es ih =>
    have : addErrorCounts cs (e :: es) =
        addErrorCounts (bumpCount cs (errorCategory e)) es := rfl
    rw [this, ih, sum_bumpCount]
    simp [List.length_cons]
    omega

/-- Folding the counter over all results counts, per category, the matching
errors across all records. -/
theorem lookupD_foldResults (results : List ValidationResult)
    (cs : List (String × Nat)) (c : String) :
    lookupD (results.foldl (fun acc res => addErrorCounts acc res.errors) cs) c =
      lookupD cs c +
        ((results.map ValidationResult.errors).flatten.countP
          (fun e => errorCategory e == c)) := by
  induction results generalizing cs with
  | nil => simp
  | cons res rest ih =>
    rw [List.foldl_cons, ih, lookupD_addErrorCounts]
    simp [List.countP_append]
    omega

/-- Folding the counter over all results totals the number of errors across
all records. -/
theorem sum_foldResults (results : List ValidationResult)
    (cs : List (String × Nat)) :
    (((results.foldl (fun acc res => addErrorCounts acc res.errors) cs)).map
        Prod.snd).sum =
      ((cs.map Prod.snd).sum) +
        ((results.map ValidationResult.errors).flatten).length := by
  induction results generalizing cs with
  | nil => simp
  | cons res rest ih =>
    rw [List.foldl_cons, ih, sum_addErrorCounts]
    simp
    omega

/-! ## Disjointness of the error-message families -/

/-- Every completeness error starts with `m`. -/
theorem completeness_head (inv : Invoice) (e : String)
    (h : e ∈ validate_completeness inv) : e.data.head? = some 'm' := by
  simp only [validate_completeness, List.mem_append] at h
  rcases h with (h | h) | h <;> rw [mem_iteSingleton h] <;> rfl

/-- Every format error starts with `f`. -/
theorem format_head (inv : Invoice) (e : String)
    (h : e ∈ validate_format inv) : e.data.head? = some 'f' := by
  simp only [validate_format, List.mem_append] at h
  rcases h with (h | h) | h <;> rw [mem_iteSingleton h] <;> rfl

/-- The continuation of the `totals_mismatch` message starts with `t`. -/
theorem totalsMsg_inner_head (inv : Invoice) :
    ("totals_mismatch (line_items_sum=" ++ formatRat2 (lineItemsSum inv)
      ++ ", net_total=" ++ formatRat2 inv.net_total ++ ")").data.head? = some 't' := by
  repeat apply head_append
  rfl

/-- The continuation of the `gross_total_mismatch` message starts with `g`. -/
theorem grossMsg_inner_head (inv : Invoice) :
    ("gross_total_mismatch (expected=" ++ formatRat2 (inv.net_total + inv.tax_amount)
      ++ ", actual=" ++ formatRat2 inv.gross_total ++ ")").data.head? = some 'g' := by
  repeat apply head_append
  rfl

/-- The continuation of the `due_date_before_invoice_date` message starts
with `d`. -/
theorem dueMsg_inner_head (dd : PyDate) (inv : Invoice) :
    ("due_date_before_invoice_date (due_date=" ++ dd.isoString
      ++ ", invoice_date=" ++ inv.invoice_date.isoString ++ ")").data.head? = some 'd' := by
  repeat apply head_append
  rfl

/-- Every business-rule error starts with `b`. -/
theorem business_head (inv : Invoice) (e : String)
    (h : e ∈ validate_business_rules inv) : e.data.head? = some 'b' := by
  have hb : bizTag.data.head? = some 'b' := rfl
  simp only [validate_business_rules, List.mem_append] at h
  rcases h with (h | h) | h
  · rw [mem_iteSingleton h, totalsMsg]; exact head_append hb
  · rw [mem_iteSingleton h, grossMsg]; exact head_append hb
  · cases hd : inv.due_date with
    | none => rw [hd] at h; simp at h
    | some dd =>
      rw [hd] at h
      rw [mem_iteSingleton h, dueMsg]; exact head_append hb

/-- The duplicate-invoice message starts with `a`. -/
theorem dupMsg_head (inv : Invoice) : (dupMsg inv).data.head? = some 'a' := by
  rw [dupMsg]
  repeat apply head_append
  rfl

/-- The `totals_mismatch` and `gross_total_mismatch` messages differ. -/
theorem totalsMsg_ne_grossMsg (a b : Invoice) : totalsMsg a ≠ grossMsg b :=
  tagged_ne (totalsMsg_inner_head a) (grossMsg_inner_head b) (by decide)

/-- The `totals_mismatch` and due-date messages differ. -/
theorem totalsMsg_ne_dueMsg (a : Invoice) (dd : PyDate) (b : Invoice) :
    totalsMsg a ≠ dueMsg dd b :=
  tagged_ne (totalsMsg_inner_head a) (dueMsg_inner_head dd b) (by decide)

/-- The `gross_total_mismatch` and due-date messages differ. -/
theorem grossMsg_ne_dueMsg (a : Invoice) (dd : PyDate) (b : Invoice) :
    grossMsg a ≠ dueMsg dd b :=
  tagged_ne (grossMsg_inner_head a) (dueMsg_inner_head dd b) (by decide)

/-- The duplicate-invoice message never occurs among the completeness,
format or business-rule errors. -/
theorem dupMsg_not_mem_base (inv inv' : Invoice) :
    dupMsg inv ∉
      validate_completeness inv' ++ validate_format inv'
        ++ validate_business_rules inv' := by
  intro h
  simp only [List.mem_append] at h
  rcases h with (h | h) | h
  · exact ne_of_head (dupMsg_head inv) (completeness_head inv' _ h) (by decide) rfl
  · exact ne_of_head (dupMsg_head inv) (format_head inv' _ h) (by decide) rfl
  · exact ne_of_head (dupMsg_head inv) (business_head inv' _ h) (by decide) rfl

/-- Pointwise-equal predicates count alike over a list. -/
theorem countP_congr_mem {α : Type} (l : List α) (p q : α → Bool)
    (h : ∀ a ∈ l, p a = q a) : l.countP p = l.countP q := by
  induction l with
  | nil => simp
  | cons a l ih =>
    rw [List.countP_cons, List.countP_cons, h a (List.mem_cons_self a l),
      ih fun b hb => h b (List.mem_cons_of_mem a hb)]

/-! ## The claims -/

/-- C1: for every input record whose `Invoice` construction fails, `validate`
returns `is_valid = false` with the single error `schema_error: <details>`,
running none of the completeness/format/business/anomaly checks (the result
is fully determined by the failure and the duplicate state is not even
consulted). -/
theorem schema_error_single_entry (seen : List DupKey) (r : RawInvoice)
    (e : String) (h : mkInvoice r = Except.error e) :
    validate seen r =
      ({ invoice_id := getInvoiceId r, is_valid := false,
         errors := ["schema_error: " ++ e] }, seen) := by
  simp [validate, h]

/-- Witness for C1: the all-missing record fails construction on its first
field and validates to exactly one `schema_error` entry. -/
theorem schema_error_single_entry_witness :
    validate [] emptyRec =
      ({ invoice_id := "unknown", is_valid := false,
         errors := ["schema_error: invoice_number: field required"] }, []) :=
  schema_error_single_entry [] emptyRec "invoice_number: field required" rfl

/-- C10: a record whose `Invoice` construction fails leaves the duplicate
tracking state untouched — validating it changes nothing, and prefixing it
to any record sequence leaves the accumulated state as without it. -/
theorem schema_error_keeps_state (seen : List DupKey) (r : RawInvoice)
    (e : String) (h : mkInvoice r = Except.error e) :
    (validate seen r).2 = seen ∧
    ∀ rs, stateFrom seen (r :: rs) = stateFrom seen rs := by
  constructor
  · simp [validate, h]
  · intro rs
    have : (validate seen r).2 = seen := by simp [validate, h]
    rw [stateFrom, this]

/-- Witness for C10: the all-missing record leaves a nonempty tracking state
unchanged. -/
theorem schema_error_keeps_state_witness :
    (validate [(("k", "s", none) : DupKey)] emptyRec).2 = [(("k", "s", none) : DupKey)] ∧
    ∀ rs, stateFrom [(("k", "s", none) : DupKey)] (emptyRec :: rs) =
      stateFrom [(("k", "s", none) : DupKey)] rs :=
  schema_error_keeps_state _ emptyRec "invoice_number: field required" rfl

/-- C2: `validate_batch` ignores (clears) the pre-existing duplicate state,
produces exactly one result per record, and its `i`-th result is the
validation of the `i`-th record against the state accumulated from the
records before it — record order is preserved. -/
theorem batch_in_order (seen : List DupKey) (rs : List RawInvoice) (i : Nat)
    (r : RawInvoice) (h : rs[i]? = some r) :
    validate_batch seen rs = validate_batch [] rs ∧
    (validate_batch seen rs).1.results.length = rs.length ∧
    (validate_batch seen rs).1.results[i]? =
      some (validate (stateFrom [] (rs.take i)) r).1 := by
  refine ⟨rfl, ?_, ?_⟩
  · show (runBatch [] rs).1.length = rs.length
    exact runBatch_length [] rs
  · show (runBatch [] rs).1[i]? = _
    rw [runBatch_getElem?, h]
    rfl

/-- Witness for C2: a two-record batch against a dirty initial state. -/
theorem batch_in_order_witness :
    validate_batch [(("x", "y", none) : DupKey)] [demoRec, demoRec] =
      validate_batch [] [demoRec, demoRec] ∧
    (validate_batch [(("x", "y", none) : DupKey)] [demoRec, demoRec]).1.results.length = 2 ∧
    (validate_batch [(("x", "y", none) : DupKey)] [demoRec, demoRec]).1.results[1]? =
      some (validate (stateFrom [] ([demoRec, demoRec].take 1)) demoRec).1 :=
  batch_in_order [(("x", "y", none) : DupKey)] [demoRec, demoRec] 1 demoRec rfl

/-- C4: the batch summary reports `total_invoices = N`,
`valid_invoices = N - K` and `invalid_invoices = K` for the `K` results
with a non-empty error list, and `error_counts` maps every category (text
before the first colon, `unknown` if none) to its number of occurrences
among all records' errors, the counts totalling the number of error
strings. -/
theorem batch_summary_counts (seen : List DupKey) (rs : List RawInvoice) :
    (validate_batch seen rs).1.summary.total_invoices = rs.length ∧
    (validate_batch seen rs).1.summary.valid_invoices =
      rs.length -
        (validate_batch seen rs).1.results.countP (fun res => !res.errors.isEmpty) ∧
    (validate_batch seen rs).1.summary.invalid_invoices =
      (validate_batch seen rs).1.results.countP (fun res => !res.errors.isEmpty) ∧
    (∀ c, lookupD (validate_batch seen rs).1.summary.error_counts c =
      (((validate_batch seen rs).1.results.map ValidationResult.errors).flatten).countP
        (fun e => errorCategory e == c)) ∧
    ((validate_batch seen rs).1.summary.error_counts.map Prod.snd).sum =
      (((validate_batch seen rs).1.results.map ValidationResult.errors).flatten).length := by
  have hlen : (runBatch [] rs).1.length = rs.length := runBatch_length [] rs
  have hvalid : (runBatch [] rs).1.countP (fun res => res.is_valid) =
      (runBatch [] rs).1.countP (fun res => res.errors.isEmpty) :=
    countP_congr_mem _ _ _ (fun res hres => runBatch_is_valid [] rs res hres)
  have hsplit := List.length_eq_countP_add_countP
    (fun res : ValidationResult => res.errors.isEmpty) (l := (runBatch [] rs).1)
  have hnot : (runBatch [] rs).1.countP
        (fun res => decide ¬(res.errors.isEmpty = true)) =
      (runBatch [] rs).1.countP (fun res => !res.errors.isEmpty) :=
    countP_congr_mem _ _ _ (fun res _ => by cases res.errors <;> simp)
  rw [hnot] at hsplit
  refine ⟨rfl, ?_, ?_, ?_, ?_⟩
  · show (runBatch [] rs).1.countP (fun res => res.is_valid) =
      rs.length - (runBatch [] rs).1.countP (fun res => !res.errors.isEmpty)
    rw [hvalid]
    omega
  · show (runBatch [] rs).1.length - (runBatch [] rs).1.countP (fun res => res.is_valid) =
      (runBatch [] rs).1.countP (fun res => !res.errors.isEmpty)
    rw [hvalid]
    omega
  · intro c
    show lookupD ((runBatch [] rs).1.foldl (fun acc res => addErrorCounts acc res.errors) []) c =
      ((((runBatch [] rs).1.map ValidationResult.errors).flatten)).countP
        (fun e => errorCategory e == c)
    rw [lookupD_foldResults]
    simp [lookupD]
  · show ((((runBatch [] rs).1.foldl (fun acc res => addErrorCounts acc res.errors) [])).map
        Prod.snd).sum =
      ((((runBatch [] rs).1.map ValidationResult.errors).flatten)).length
    rw [sum_foldResults]
    simp

/-- C9: the generic monetary extractor strips thousands separators before
parsing, falls through to the next candidate on a parse failure, and comes
back empty exactly when no candidate's match parses. -/
theorem extract_amount_skip_semantics (pyFloat : String → Option Rat)
    (ps : List Matcher) (text : String) :
    extract_amount pyFloat ps text =
      ps.findSome? (fun p => (p text).bind (fun m => pyFloat (stripCommas m))) ∧
    (extract_amount pyFloat ps text = none ↔
      ∀ p ∈ ps, ∀ m, p text = some m → pyFloat (stripCommas m) = none) := by
  induction ps with
  | nil => simp [extract_amount]
  | cons p rest ih =>
    cases hp : p text with
    | none =>
      constructor
      · rw [List.findSome?_cons]
        simpa [extract_amount, hp] using ih.1
      · rw [show extract_amount pyFloat (p :: rest) text =
            extract_amount pyFloat rest text by simp [extract_amount, hp]]
        rw [ih.2]
        constructor
        · intro h p' hp' m hm
          rcases List.mem_cons.mp hp' with rfl | hp'
          · rw [hp] at hm; cases hm
          · exact h p' hp' m hm
        · intro h p' hp' m hm
          exact h p' (List.mem_cons_of_mem p hp') m hm
    | some m =>
      cases hf : pyFloat (stripCommas m) with
      | some v =>
        constructor
        · rw [List.findSome?_cons]
          simp [extract_amount, hp, hf]
        · constructor
          · intro h; rw [show extract_amount pyFloat (p :: rest) text = some v by
              simp [extract_amount, hp, hf]] at h; cases h
          · intro h
            have := h p (List.mem_cons_self p rest) m hp
            rw [hf] at this; cases this
      | none =>
        constructor
        · rw [List.findSome?_cons]
          simpa [extract_amount, hp, hf] using ih.1
        · rw [show extract_amount pyFloat (p :: rest) text =
              extract_amount pyFloat rest text by simp [extract_amount, hp, hf]]
          rw [ih.2]
          constructor
          · intro h p' hp' m' hm'
            rcases List.mem_cons.mp hp' with rfl | hp'
            · rw [hp] at hm'; cases hm'; exact hf
            · exact h p' hp' m' hm'
          · intro h p' hp' m' hm'
            exact h p' (List.mem_cons_of_mem p hp') m' hm'

/-- Witness for C9: a singleton pattern list whose match does not parse. -/
theorem extract_amount_skip_semantics_witness :
    extract_amount (fun _ => none) [fun _ => some "1,0"] "t" =
      ([fun _ => some "1,0"] : List Matcher).findSome?
        (fun p => (p "t").bind (fun m => (fun _ => (none : Option Rat)) (stripCommas m))) ∧
    (extract_amount (fun _ => none) [fun _ => some "1,0"] "t" = none ↔
      ∀ p ∈ ([fun _ => some "1,0"] : List Matcher), ∀ m, p "t" = some m →
        (none : Option Rat) = none) :=
  extract_amount_skip_semantics (fun _ => none) [fun _ => some "1,0"] "t"

/-- C7: the record assembler is total and applies the documented defaults
for every unmatched field: `UNKNOWN` invoice number, `none` for missing or
unparseable dates, empty party names, `USD` currency, zero totals, empty
line-item list. -/
theorem extractor_defaults (E : RegexEnv) (text : String)
    (invoice_id : Option String) :
    (firstMatch E.invoiceNumberPatterns text = none →
      (extract_invoice_from_text E text invoice_id).invoice_number = "UNKNOWN") ∧
    (firstMatch E.datePatterns text = none →
      (extract_invoice_from_text E text invoice_id).invoice_date = none) ∧
    (∀ s, firstMatch E.datePatterns text = some s → E.dateutil s = none →
      (extract_invoice_from_text E text invoice_id).invoice_date = none) ∧
    (firstMatch E.dueDatePatterns text = none →
      (extract_invoice_from_text E text invoice_id).due_date = none) ∧
    (∀ s, firstMatch E.dueDatePatterns text = some s → E.dateutil s = none →
      (extract_invoice_from_text E text invoice_id).due_date = none) ∧
    (firstMatch E.sellerPatterns text = none →
      (extract_invoice_from_text E text invoice_id).seller_name = "") ∧
    (firstMatch E.buyerPatterns text = none →
      (extract_invoice_from_text E text invoice_id).buyer_name = "") ∧
    (extract_currency E.currencyPatterns text = none →
      (extract_invoice_from_text E text invoice_id).currency = "USD") ∧
    (extract_amount E.pyFloat E.netTotalPatterns text = none →
      (extract_invoice_from_text E text invoice_id).net_total = 0) ∧
    (extract_amount E.pyFloat E.taxAmountPatterns text = none →
      (extract_invoice_from_text E text invoice_id).tax_amount = 0) ∧
    (extract_amount E.pyFloat E.grossTotalPatterns text = none →
      (extract_invoice_from_text E text invoice_id).gross_total = 0) ∧
    (E.lineItems text = [] →
      (extract_invoice_from_text E text invoice_id).line_items = []) := by
  refine ⟨?_, ?_, ?_, ?_, ?_, ?_, ?_, ?_, ?_, ?_, ?_, ?_⟩
  · intro h; simp [extract_invoice_from_text, h, pyOrStr]
  · intro h; simp [extract_invoice_from_text, h, pyIfStr]
  · intro s hs hd
    by_cases hse : s = ""
    · simp [extract_invoice_from_text, hs, pyIfStr, hse]
    · simp [extract_invoice_from_text, hs, pyIfStr, hse, parse_date, hd]
  · intro h; simp [extract_invoice_from_text, h, pyIfStr]
  · intro s hs hd
    by_cases hse : s = ""
    · simp [extract_invoice_from_text, hs, pyIfStr, hse]
    · simp [extract_invoice_from_text, hs, pyIfStr, hse, parse_date, hd]
  · intro h; simp [extract_invoice_from_text, h, pyOrStr]
  · intro h; simp [extract_invoice_from_text, h, pyOrStr]
  · intro h; simp [extract_invoice_from_text, h, pyOrStr]
  · intro h; simp [extract_invoice_from_text, h, pyOrRat]
  · intro h; simp [extract_invoice_from_text, h, pyOrRat]
  · intro h; simp [extract_invoice_from_text, h, pyOrRat]
  · intro h; simp [extract_invoice_from_text, h]

/-- Witness for C7: the environment in which nothing matches yields the
fully defaulted record. -/
theorem extractor_defaults_witness :
    (extract_invoice_from_text emptyEnv "x" none).invoice_number = "UNKNOWN" ∧
    (extract_invoice_from_text emptyEnv "x" none).invoice_date = none ∧
    (extract_invoice_from_text emptyEnv "x" none).due_date = none ∧
    (extract_invoice_from_text emptyEnv "x" none).seller_name = "" ∧
    (extract_invoice_from_text emptyEnv "x" none).buyer_name = "" ∧
    (extract_invoice_from_text emptyEnv "x" none).currency = "USD" ∧
    (extract_invoice_from_text emptyEnv "x" none).net_total = 0 ∧
    (extract_invoice_from_text emptyEnv "x" none).tax_amount = 0 ∧
    (extract_invoice_from_text emptyEnv "x" none).gross_total = 0 ∧
    (extract_invoice_from_text emptyEnv "x" none).line_items = [] := by
  have h := extractor_defaults emptyEnv "x" none
  exact ⟨h.1 rfl, h.2.1 rfl, h.2.2.2.1 rfl, h.2.2.2.2.2.1 rfl,
    h.2.2.2.2.2.2.1 rfl, h.2.2.2.2.2.2.2.1 rfl, h.2.2.2.2.2.2.2.2.1 rfl,
    h.2.2.2.2.2.2.2.2.2.1 rfl, h.2.2.2.2.2.2.2.2.2.2.1 rfl,
    h.2.2.2.2.2.2.2.2.2.2.2 rfl⟩

/-- `reqNonneg` on a present, non-negative value succeeds. -/
theorem reqNonneg_some (q : Rat) (name : String) (h : ¬ q < 0) :
    reqNonneg (some q) name = Except.ok q := by
  simp [reqNonneg, h]

/-- C6 (amended): constructing a `LineItem` succeeds exactly when all four
fields are present, the three numeric ones are non-negative, and
`|line_total - quantity * unit_price| ≤ 0.01`; for quantity 2 and unit
price 10.00 a line total of 20.00 constructs, while 20.02 (a 0.02
discrepancy, beyond the 0.01 tolerance) and 21.00 fail. -/
theorem mkLineItem_ok_iff (r : RawLineItem) :
    ((∃ li, mkLineItem r = Except.ok li) ↔
      ∃ d q u t, r.description = some d ∧ r.quantity = some q ∧
        r.unit_price = some u ∧ r.line_total = some t ∧
        0 ≤ q ∧ 0 ≤ u ∧ 0 ≤ t ∧ |t - q * u| ≤ tolerance) ∧
    mkLineItem lineOk =
      Except.ok { description := "item", quantity := 2, unit_price := 10,
                  line_total := 20 } ∧
    mkLineItem line2002 =
      Except.error "line_total does not match quantity * unit_price" ∧
    mkLineItem line2100 =
      Except.error "line_total does not match quantity * unit_price" := by
  refine ⟨⟨?_, ?_⟩, ?_, ?_, ?_⟩
  · rintro ⟨li, hli⟩
    simp only [mkLineItem] at hli
    cases hd : r.description with
    | none => rw [hd] at hli; simp [reqField, error_bind] at hli
    | some d =>
    rw [hd] at hli
    simp only [reqField, ok_bind] at hli
    cases hq : r.quantity with
    | none => rw [hq] at hli; simp [reqNonneg, error_bind] at hli
    | some q =>
    rw [hq] at hli
    by_cases hq0 : q < 0
    · simp [reqNonneg, hq0, error_bind] at hli
    rw [reqNonneg_some q _ hq0, ok_bind] at hli
    cases hu : r.unit_price with
    | none => rw [hu] at hli; simp [reqNonneg, error_bind] at hli
    | some u =>
    rw [hu] at hli
    by_cases hu0 : u < 0
    · simp [reqNonneg, hu0, error_bind] at hli
    rw [reqNonneg_some u _ hu0, ok_bind] at hli
    cases ht : r.line_total with
    | none => rw [ht] at hli; simp [reqNonneg, error_bind] at hli
    | some t =>
    rw [ht] at hli
    by_cases ht0 : t < 0
    · simp [reqNonneg, ht0, error_bind] at hli
    rw [reqNonneg_some t _ ht0, ok_bind] at hli
    by_cases htol : |t - q * u| > tolerance
    · rw [if_pos htol] at hli; cases hli
    · exact ⟨d, q, u, t, rfl, rfl, rfl, rfl, not_lt.mp hq0, not_lt.mp hu0,
        not_lt.mp ht0, not_lt.mp htol⟩
  · rintro ⟨d, q, u, t, hd, hq, hu, ht, hq0, hu0, ht0, htol⟩
    refine ⟨{ description := d, quantity := q, unit_price := u, line_total := t }, ?_⟩
    simp only [mkLineItem]
    rw [hd]
    simp only [reqField, ok_bind]
    rw [hq, reqNonneg_some q _ (not_lt.mpr hq0), ok_bind,
      hu, reqNonneg_some u _ (not_lt.mpr hu0), ok_bind,
      ht, reqNonneg_some t _ (not_lt.mpr ht0), ok_bind,
      if_neg (not_lt.mpr htol)]
  · have h20 : ¬ |(20 : Rat) - 2 * 10| > tolerance := by
      rw [show (20 : Rat) - 2 * 10 = 0 by norm_num, abs_zero, tolerance]
      norm_num
    simp only [mkLineItem, lineOk, reqField, ok_bind]
    rw [reqNonneg_some 2 _ (by norm_num), ok_bind,
      reqNonneg_some 10 _ (by norm_num), ok_bind,
      reqNonneg_some 20 _ (by norm_num), ok_bind, if_neg h20]
  · have habs : |(2002 : Rat)/100 - 2 * 10| > tolerance := by
      rw [show (2002 : Rat)/100 - 2 * 10 = 1/50 by norm_num,
        abs_of_pos (show (0 : Rat) < 1/50 by norm_num), tolerance]
      norm_num
    simp only [mkLineItem, line2002, lineOk, reqField, ok_bind]
    rw [reqNonneg_some 2 _ (by norm_num), ok_bind,
      reqNonneg_some 10 _ (by norm_num), ok_bind,
      reqNonneg_some (2002/100) _ (by norm_num), ok_bind, if_pos habs]
  · have habs : |(21 : Rat) - 2 * 10| > tolerance := by
      rw [show (21 : Rat) - 2 * 10 = 1 by norm_num,
        abs_of_pos (show (0 : Rat) < 1 by norm_num), tolerance]
      norm_num
    simp only [mkLineItem, line2100, lineOk, reqField, ok_bind]
    rw [reqNonneg_some 2 _ (by norm_num), ok_bind,
      reqNonneg_some 10 _ (by norm_num), ok_bind,
      reqNonneg_some 21 _ (by norm_num), ok_bind, if_pos habs]

/-- Witness for C6: the exact line item summand `2 × 10.00 = 20.00`
satisfies the construction characterization. -/
theorem mkLineItem_ok_iff_witness :
    ∃ li, mkLineItem lineOk = Except.ok li :=
  (mkLineItem_ok_iff lineOk).1.mpr
    ⟨"item", 2, 10, 20, rfl, rfl, rfl, rfl, by norm_num, by norm_num, by norm_num,
      by rw [show (20 : Rat) - 2 * 10 = 0 by norm_num, abs_zero, tolerance]; norm_num⟩

/-- Counterexample for C6 as stated: a line item with quantity 2, unit
price 10.00 and line total 20.02 does NOT construct — the 0.02 discrepancy
exceeds the 0.01 tolerance, so 20.02 is shape-invalid, not shape-valid. -/
theorem mkLineItem_2002_fails :
    mkLineItem line2002 =
      Except.error "line_total does not match quantity * unit_price" := by
  have habs : |(2002 : Rat)/100 - 2 * 10| > tolerance := by
    rw [show (2002 : Rat)/100 - 2 * 10 = 1/50 by norm_num,
      abs_of_pos (show (0 : Rat) < 1/50 by norm_num), tolerance]
    norm_num
  simp only [mkLineItem, line2002, lineOk, reqField, ok_bind]
  rw [reqNonneg_some 2 _ (by norm_num), ok_bind,
    reqNonneg_some 10 _ (by norm_num), ok_bind,
    reqNonneg_some (2002/100) _ (by norm_num), ok_bind, if_pos habs]

/-- C5: the business-rule family emits `totals_mismatch` exactly when the
line-item sum strays from `net_total` by more than the tolerance, emits
`gross_total_mismatch` exactly when `net_total + tax_amount` strays from
`gross_total` by more than the tolerance, and accumulates both without
short-circuiting. -/
theorem business_rule_mismatch_iff (inv : Invoice) :
    (totalsMsg inv ∈ validate_business_rules inv ↔
      |lineItemsSum inv - inv.net_total| > tolerance) ∧
    (grossMsg inv ∈ validate_business_rules inv ↔
      |inv.net_total + inv.tax_amount - inv.gross_total| > tolerance) ∧
    (|lineItemsSum inv - inv.net_total| > tolerance →
      |inv.net_total + inv.tax_amount - inv.gross_total| > tolerance →
      List.Sublist [totalsMsg inv, grossMsg inv] (validate_business_rules inv)) := by
  refine ⟨⟨?_, ?_⟩, ⟨?_, ?_⟩, ?_⟩
  · intro h
    simp only [validate_business_rules, List.mem_append] at h
    rcases h with (h | h) | h
    · by_cases hc : |lineItemsSum inv - inv.net_total| > tolerance
      · exact hc
      · rw [if_neg hc] at h; simp at h
    · exact absurd (mem_iteSingleton h) (totalsMsg_ne_grossMsg inv inv)
    · cases hd : inv.due_date with
      | none => rw [hd] at h; simp at h
      | some dd =>
        rw [hd] at h
        exact absurd (mem_iteSingleton h) (totalsMsg_ne_dueMsg inv dd inv)
  · intro hc
    simp only [validate_business_rules, List.mem_append]
    left; left; rw [if_pos hc]; simp
  · intro h
    simp only [validate_business_rules, List.mem_append] at h
    rcases h with (h | h) | h
    · exact absurd (mem_iteSingleton h) (totalsMsg_ne_grossMsg inv inv).symm
    · by_cases hc : |inv.net_total + inv.tax_amount - inv.gross_total| > tolerance
      · exact hc
      · rw [if_neg hc] at h; simp at h
    · cases hd : inv.due_date with
      | none => rw [hd] at h; simp at h
      | some dd =>
        rw [hd] at h
        exact absurd (mem_iteSingleton h) (grossMsg_ne_dueMsg inv dd inv)
  · intro hc
    simp only [validate_business_rules, List.mem_append]
    left; right; rw [if_pos hc]; simp
  · intro h1 h2
    simp only [validate_business_rules]
    rw [if_pos h1, if_pos h2]
    exact List.sublist_append_left _ _

/-- Witness for C5: an invoice with no line items, `net_total = 100`,
`tax_amount = 10`, `gross_total = 0` violates both rules and carries both
messages, in order. -/
theorem business_rule_mismatch_iff_witness :
    List.Sublist [totalsMsg mismatchInv, grossMsg mismatchInv]
      (validate_business_rules mismatchInv) := by
  have h1 : |lineItemsSum mismatchInv - mismatchInv.net_total| > tolerance := by
    rw [show lineItemsSum mismatchInv - mismatchInv.net_total = -100 by
        simp [lineItemsSum, mismatchInv, demoInv],
      abs_neg, abs_of_pos (show (0 : Rat) < 100 by norm_num), tolerance]
    norm_num
  have h2 : |mismatchInv.net_total + mismatchInv.tax_amount - mismatchInv.gross_total|
      > tolerance := by
    rw [show mismatchInv.net_total + mismatchInv.tax_amount - mismatchInv.gross_total
        = 110 by simp [mismatchInv, demoInv]; norm_num,
      abs_of_pos (show (0 : Rat) < 110 by norm_num), tolerance]
    norm_num
  exact (business_rule_mismatch_iff mismatchInv).2.2 h1 h2

/-- C8: a record whose `due_date` precedes its `invoice_date` never
constructs an `Invoice` (the shape gate rejects it, so `validate` reports a
`schema_error`), and on every successfully constructed invoice the
rule-layer due-date branch is unreachable: its condition is false and its
message absent. -/
theorem due_date_shape_gate :
    (∀ (r : RawInvoice) (d dd : PyDate), r.invoice_date = some d →
      r.due_date = some dd → dd.ltB d = true →
      ∃ e, mkInvoice r = Except.error e ∧
        ∀ seen, validate seen r =
          ({ invoice_id := getInvoiceId r, is_valid := false,
             errors := ["schema_error: " ++ e] }, seen)) ∧
    (∀ (r : RawInvoice) (inv : Invoice), mkInvoice r = Except.ok inv →
      ∀ dd, inv.due_date = some dd →
        dd.ltB inv.invoice_date = false ∧
        dueMsg dd inv ∉ validate_business_rules inv) := by
  constructor
  · intro r d dd hd hdd hlt
    have hmk : ∃ e, mkInvoice r = Except.error e := by
      simp only [mkInvoice]
      apply bind_error_of; intro n hn
      rw [hd]
      simp only [reqDate, ok_bind]
      apply bind_error_of; intro s hs
      apply bind_error_of; intro b hb
      apply bind_error_of; intro c hc
      apply bind_error_of; intro q1 h1
      apply bind_error_of; intro q2 h2
      apply bind_error_of; intro q3 h3
      apply bind_error_of; intro ls hls
      have hcd : checkDueDate r.due_date d =
          Except.error ("due_date " ++ dd.isoString ++ " must be >= invoice_date "
            ++ d.isoString) := by
        rw [hdd]
        simp only [checkDueDate]
        rw [if_pos hlt]
      exact ⟨_, by rw [hcd, error_bind]⟩
    obtain ⟨e, he⟩ := hmk
    exact ⟨e, he, fun seen => by simp [validate, he]⟩
  · intro r inv h dd hdd
    simp only [mkInvoice] at h
    cases hn : reqStr r.invoice_number "invoice_number" with
    | error e => rw [hn, error_bind] at h; cases h
    | ok n =>
    rw [hn, ok_bind] at h
    cases hdt : reqDate r.invoice_date "invoice_date" with
    | error e => rw [hdt, error_bind] at h; cases h
    | ok d =>
    rw [hdt, ok_bind] at h
    cases hs : reqStr r.seller_name "seller_name" with
    | error e => rw [hs, error_bind] at h; cases h
    | ok s =>
    rw [hs, ok_bind] at h
    cases hb : reqStr r.buyer_name "buyer_name" with
    | error e => rw [hb, error_bind] at h; cases h
    | ok b =>
    rw [hb, ok_bind] at h
    cases hc : reqCurrency r.currency with
    | error e => rw [hc, error_bind] at h; cases h
    | ok c =>
    rw [hc, ok_bind] at h
    cases h1 : reqNonneg r.net_total "net_total" with
    | error e => rw [h1, error_bind] at h; cases h
    | ok q1 =>
    rw [h1, ok_bind] at h
    cases h2 : reqNonneg r.tax_amount "tax_amount" with
    | error e => rw [h2, error_bind] at h; cases h
    | ok q2 =>
    rw [h2, ok_bind] at h
    cases h3 : reqNonneg r.gross_total "gross_total" with
    | error e => rw [h3, error_bind] at h; cases h
    | ok q3 =>
    rw [h3, ok_bind] at h
    cases hls : mkLineItems (r.line_items.getD []) with
    | error e => rw [hls, error_bind] at h; cases h
    | ok ls =>
    rw [hls, ok_bind] at h
    cases hcd : checkDueDate r.due_date d with
    | error e => rw [hcd, error_bind] at h; cases h
    | ok u =>
    rw [hcd, ok_bind] at h
    injection h with h'
    subst h'
    simp only at hdd
    rw [hdd] at hcd
    simp only [checkDueDate] at hcd
    by_cases hlt : dd.ltB d = true
    · rw [if_pos hlt] at hcd; cases hcd
    · have hfalse : dd.ltB d = false := by
        revert hlt; cases dd.ltB d <;> simp
      refine ⟨by simpa using hfalse, ?_⟩
      intro hmem
      simp only [validate_business_rules, List.mem_append] at hmem
      rcases hmem with (hmem | hmem) | hmem
      · exact absurd (mem_iteSingleton hmem).symm (totalsMsg_ne_dueMsg _ dd _)
      · exact absurd (mem_iteSingleton hmem).symm (grossMsg_ne_dueMsg _ dd _)
      · simp only [hdd] at hmem
        rw [if_neg hlt] at hmem
        simp at hmem

/-- Witness for C8: the record with due date 2024-01-10 before invoice date
2024-01-15 fails the shape gate, and on the shape-valid invoice with due
date 2024-02-15 the rule-layer branch is dead. -/
theorem due_date_shape_gate_witness :
    (∃ e, mkInvoice badDueRec = Except.error e ∧
      ∀ seen, validate seen badDueRec =
        ({ invoice_id := getInvoiceId badDueRec, is_valid := false,
           errors := ["schema_error: " ++ e] }, seen)) ∧
    (PyDate.ltB { year := 2024, month := 2, day := 15 } okDueInv.invoice_date = false ∧
      dueMsg { year := 2024, month := 2, day := 15 } okDueInv ∉
        validate_business_rules okDueInv) := by
  constructor
  · exact due_date_shape_gate.1 badDueRec demoDate { year := 2024, month := 1, day := 10 }
      rfl rfl rfl
  · exact due_date_shape_gate.2 okDueRec okDueInv rfl
      { year := 2024, month := 2, day := 15 } rfl

/-- C3: within one batch, a shape-valid record's result carries the
`duplicate_invoice` anomaly exactly when some earlier shape-valid record of
the batch has the same duplicate key — the first occurrence of a key is
never flagged and every later occurrence is; and the anomaly check emits
the error precisely when the key is already tracked (leaving the state
as-is), inserting the key precisely otherwise. -/
theorem duplicate_flag_iff (seen : List DupKey) (rs : List RawInvoice) (i : Nat)
    (r : RawInvoice) (inv : Invoice) (res : ValidationResult)
    (hr : rs[i]? = some r) (hok : mkInvoice r = Except.ok inv)
    (hres : (validate_batch seen rs).1.results[i]? = some res) :
    (dupMsg inv ∈ res.errors ↔
      ∃ j r' inv', j < i ∧ rs[j]? = some r' ∧ mkInvoice r' = Except.ok inv' ∧
        dupKey inv' = dupKey inv) ∧
    (∀ s, (dupKey inv ∈ s → validate_anomalies s inv = ([dupMsg inv], s)) ∧
          (dupKey inv ∉ s → validate_anomalies s inv = ([], dupKey inv :: s))) := by
  constructor
  · have hres' : (runBatch [] rs).1[i]? = some res := hres
    rw [runBatch_getElem?, hr] at hres'
    have hres2 : res = (validate (stateFrom [] (rs.take i)) r).1 := by
      simpa using hres'.symm
    subst hres2
    have herr : ((validate (stateFrom [] (rs.take i)) r).1).errors =
        validate_completeness inv ++ validate_format inv
          ++ validate_business_rules inv
          ++ (validate_anomalies (stateFrom [] (rs.take i)) inv).1 := by
      simp [validate, hok]
    rw [herr]
    constructor
    · intro hmem
      rcases List.mem_append.mp hmem with hmem | hmem
      · exact absurd hmem (dupMsg_not_mem_base inv inv)
      · by_cases hk : dupKey inv ∈ stateFrom [] (rs.take i)
        · rcases (mem_stateFrom _ [] _).mp hk with hk' | ⟨r', hr', inv', hinv', hkey⟩
          · exact absurd hk' (List.not_mem_nil _)
          · rw [mem_take_iff_getElem?] at hr'
            obtain ⟨j, hj, hget⟩ := hr'
            exact ⟨j, r', inv', hj, hget, hinv', hkey⟩
        · rw [show (validate_anomalies (stateFrom [] (rs.take i)) inv).1 = [] by
            simp [validate_anomalies, hk]] at hmem
          simp at hmem
    · rintro ⟨j, r', inv', hj, hget, hinv', hkey⟩
      have hk : dupKey inv ∈ stateFrom [] (rs.take i) := by
        apply (mem_stateFrom _ [] _).mpr
        right
        refine ⟨r', ?_, inv', hinv', hkey⟩
        rw [mem_take_iff_getElem?]
        exact ⟨j, hj, hget⟩
      apply List.mem_append.mpr
      right
      simp [validate_anomalies, hk]
  · intro s
    constructor
    · intro hk; simp [validate_anomalies, hk]
    · intro hk; simp [validate_anomalies, hk]

/-- Witness for C3: validating the same shape-valid record twice in one
batch flags only the second occurrence, whose only error is the duplicate
anomaly. -/
theorem duplicate_flag_iff_witness :
    (dupMsg demoInv ∈
        ({ invoice_id := "INV-001", is_valid := false,
           errors := [dupMsg demoInv] } : ValidationResult).errors ↔
      ∃ j r' inv', j < 1 ∧ ([demoRec, demoRec])[j]? = some r' ∧
        mkInvoice r' = Except.ok inv' ∧ dupKey inv' = dupKey demoInv) ∧
    (∀ s, (dupKey demoInv ∈ s →
            validate_anomalies s demoInv = ([dupMsg demoInv], s)) ∧
          (dupKey demoInv ∉ s →
            validate_anomalies s demoInv = ([], dupKey demoInv :: s))) := by
  have hmk : mkInvoice demoRec = Except.ok demoInv := rfl
  have hid : getInvoiceId demoRec = "INV-001" := rfl
  have hcomp : validate_completeness demoInv = [] := by decide
  have hfmt : validate_format demoInv = [] := by decide
  have hc1 : ¬(|lineItemsSum demoInv - demoInv.net_total| > tolerance) := by
    rw [show lineItemsSum demoInv - demoInv.net_total = 0 by
        simp [lineItemsSum, demoInv], abs_zero, tolerance]
    norm_num
  have hc2 : ¬(|demoInv.net_total + demoInv.tax_amount - demoInv.gross_total|
      > tolerance) := by
    rw [show demoInv.net_total + demoInv.tax_amount - demoInv.gross_total = 0 by
        simp [demoInv], abs_zero, tolerance]
    norm_num
  have hbiz : validate_business_rules demoInv = [] := by
    rw [validate_business_rules, if_neg hc1, if_neg hc2,
      show demoInv.due_date = none from rfl]
    simp
  have hv1 : validate [] demoRec =
      ({ invoice_id := "INV-001", is_valid := true, errors := [] },
        [dupKey demoInv]) := by
    simp only [validate, hmk]
    simp [hcomp, hfmt, hbiz, validate_anomalies, hid]
  have hv2 : validate [dupKey demoInv] demoRec =
      ({ invoice_id := "INV-001", is_valid := false, errors := [dupMsg demoInv] },
        [dupKey demoInv]) := by
    simp only [validate, hmk]
    simp [hcomp, hfmt, hbiz, validate_anomalies, hid]
  have hres : (validate_batch ([] : List DupKey) [demoRec, demoRec]).1.results[1]? =
      some { invoice_id := "INV-001", is_valid := false,
             errors := [dupMsg demoInv] } := by
    show (runBatch [] [demoRec, demoRec]).1[1]? = _
    rw [show runBatch [] [demoRec, demoRec] =
        ((validate [] demoRec).1 ::
          ((validate (validate [] demoRec).2 demoRec).1 :: []),
         (validate (validate [] demoRec).2 demoRec).2) from rfl]
    rw [hv1]
    simp [hv2]
  exact duplicate_flag_iff [] [demoRec, demoRec] 1 demoRec demoInv _ rfl hmk hres

end InvoiceQC
